import Mathlib

/-!
# Verification of the MaxQuant parameter-file flattening engine

Shallow embedding of `src/proteobench/io/params/maxquant.py`: the XML record
reader (`read_xml_record` with its helper `add_record`), the flattener
(`flatten_dict_of_dicts`, `extend_tuple`, `build_Series_from_records`), the
sorted-index lookup with pandas `loc`/`squeeze` semantics, and the schema
extractor `extract_params`.

Python values reachable in this pipeline are modelled by `PyVal`
(strings, `None`, dicts as insertion-ordered association lists, lists).
Python exceptions are modelled by `Except Unit`.
-/

/-- An XML element as seen through `xml.etree.ElementTree`: a tag, the text
directly under the element (`element.text`, with `""` standing for an absent
text), and the list of child elements (in document order).  `element.tail`
is never read by the code and is omitted. -/
inductive XML where
  | elem (tag : String) (text : String) (children : List XML)

/-- The Python values the reader and flattener manipulate: strings, `None`,
dicts (insertion-ordered association lists, as Python dicts are) and lists. -/
inductive PyVal where
  | str (s : String)
  | none
  | dict (entries : List (String × PyVal))
  | list (items : List PyVal)

def XML.tagOf : XML → String
  | .elem t _ _ => t

def XML.textOf : XML → String
  | .elem _ t _ => t

def XML.childrenOf : XML → List XML
  | .elem _ _ cs => cs

/-- Python whitespace as `str.strip()` sees it (the ASCII whitespace
characters; the parameter files at hand contain no exotic Unicode spaces). -/
def pyWs (c : Char) : Bool :=
  c = ' ' || c = '\t' || c = '\n' || c = '\r' || c = '\x0b' || c = '\x0c'

/-- Python `s.strip()`: drop leading and trailing whitespace. -/
def pyStrip (s : String) : String :=
  String.mk (((s.data.dropWhile pyWs).reverse.dropWhile pyWs).reverse)

/-- Python `<` on individual characters: comparison of code points. -/
def pyCharLt (a b : Char) : Bool := a.val < b.val

/-- Python `<` on strings, on the underlying character lists: lexicographic
comparison by code point. -/
def pyLtData : List Char → List Char → Bool
  | [], [] => false
  | [], _ :: _ => true
  | _ :: _, [] => false
  | a :: as, b :: bs => pyCharLt a b || (a = b && pyLtData as bs)

/-- Python `<` on strings. -/
def pyStrLt (a b : String) : Bool := pyLtData a.data b.data

/-- Python `data[tag]` read access on a dict (first matching key). -/
def dictGet : List (String × PyVal) → String → Option PyVal
  | [], _ => Option.none
  | (k, w) :: rest, t => if k = t then some w else dictGet rest t

/-- Python `data[tag] = v`: replace the value at an existing key in place,
otherwise append the new key at the end (dict insertion order). -/
def dictSet : List (String × PyVal) → String → PyVal → List (String × PyVal)
  | [], t, v => [(t, v)]
  | (k, w) :: rest, t, v =>
      if k = t then (k, v) :: rest else (k, w) :: dictSet rest t v

/-- `add_record(data, tag, record)` from maxquant.py: if the tag is present
and already holds a list, append; if present holding a non-list, wrap the
old and new value in a two-element list; otherwise insert the record. -/
def add_record (data : List (String × PyVal)) (tag : String) (record : PyVal) :
    List (String × PyVal) :=
  match dictGet data tag with
  | Option.none => data ++ [(tag, record)]
  | some (PyVal.list xs) => dictSet data tag (PyVal.list (xs ++ [record]))
  | some v => dictSet data tag (PyVal.list [v, record])

/-- The closing lines of `read_xml_record`: an empty dict is normalized to
`None`, a non-empty one is returned as is. -/
def mkNode (data : List (String × PyVal)) : PyVal :=
  if data.isEmpty then PyVal.none else PyVal.dict data

mutual

/-- The `for child in element` loop of `read_xml_record`, threading the
`data` dict through the children in document order. -/
def readChildren : List XML → List (String × PyVal) → List (String × PyVal)
  | [], data => data
  | c :: rest, data => readChildren rest (readChild data c)

/-- One iteration of the loop body of `read_xml_record`:
`if len(child) > 1 and child.tag` builds the per-grandchild list and assigns
it (overwriting any previous entry at that tag); `elif child.text and
child.text.strip()` stores the stripped text via `add_record`; otherwise the
child is read recursively and stored via `add_record` (the recursive
`read_xml_record(child)` call appears here inlined as
`mkNode (readChildren cs [])`, which is its definition). -/
def readChild (data : List (String × PyVal)) : XML → List (String × PyVal)
  | .elem tag text cs =>
      if cs.length > 1 ∧ tag ≠ "" then
        dictSet data tag (PyVal.list (readGrandchildren cs))
      else if pyStrip text ≠ "" then
        add_record data tag (PyVal.str (pyStrip text))
      else
        add_record data tag (mkNode (readChildren cs []))

/-- The list comprehension of the first branch: each grandchild becomes the
one-entry dict `add_record(dict(), tag=child.tag, record=...)`. -/
def readGrandchildren : List XML → List PyVal
  | [] => []
  | gc :: rest => PyVal.dict [(gc.tagOf, grandRecord gc)] :: readGrandchildren rest

/-- The record chosen for a grandchild inside the comprehension: the stripped
text when it is non-empty, otherwise the recursive read (again with
`read_xml_record` inlined as `mkNode (readChildren cs [])`). -/
def grandRecord : XML → PyVal
  | .elem _ text cs =>
      if pyStrip text ≠ "" then PyVal.str (pyStrip text)
      else mkNode (readChildren cs [])

end

/-- `read_xml_record(element)` from maxquant.py: fold the children into a
dict; an empty result is normalized to `None`. -/
def read_xml_record : XML → PyVal
  | .elem _ _ children => mkNode (readChildren children [])

/-- `read_file`: parse the document and read the record of the root element.
Document parsing itself (`ET.parse`) is the concern of the underlying library;
the embedding starts from the already-parsed root element. -/
def read_file (doc : XML) : PyVal :=
  read_xml_record doc

/-- A padded path key: the components of a `pandas.MultiIndex` tuple, where
`Option.none` stands for the `None`/`NaN` padding component. -/
abbrev PathKey := List (Option String)

/-- `extend_tuple(t, target_length)` from maxquant.py: `ValueError` when the
tuple is longer than the target, otherwise pad on the right with `None`.
(The `TypeError` branch for non-tuple arguments is ruled out by typing.) -/
def extend_tuple (t : PathKey) (target_length : Nat) : Except Unit PathKey :=
  if t.length > target_length then Except.error ()
  else Except.ok (t ++ List.replicate (target_length - t.length) Option.none)

mutual

/-- `flatten_dict_of_dicts(d, parent_key)` from maxquant.py: walk the dict
entries in order, extending the key tuple, recursing into mappings, spreading
lists (mappings recurse, strings become entries, anything else raises), and
emitting any other value as a leaf entry. -/
def flatten_dict_of_dicts : List (String × PyVal) → List String →
    Except Unit (List (List String × PyVal))
  | [], _ => Except.ok []
  | (k, v) :: rest, parent_key => do
      let head ← flattenValue v (parent_key ++ [k])
      let tail ← flatten_dict_of_dicts rest parent_key
      return head ++ tail

/-- Dispatch on one dict value inside `flatten_dict_of_dicts`: mappings
recurse, lists iterate, everything else (strings, `None`) is a leaf. -/
def flattenValue : PyVal → List String → Except Unit (List (List String × PyVal))
  | PyVal.dict entries, new_key => flatten_dict_of_dicts entries new_key
  | PyVal.list items, new_key => flattenItems items new_key
  | v, new_key => Except.ok [(new_key, v)]

/-- The `for item in v` loop: a mapping item recurses with the same extended
key, a string item becomes an entry, any other item raises (`Unknown item`). -/
def flattenItems : List PyVal → List String → Except Unit (List (List String × PyVal))
  | [], _ => Except.ok []
  | PyVal.dict entries :: rest, new_key => do
      let head ← flatten_dict_of_dicts entries new_key
      let tail ← flattenItems rest new_key
      return head ++ tail
  | PyVal.str s :: rest, new_key => do
      let tail ← flattenItems rest new_key
      return (new_key, PyVal.str s) :: tail
  | _ :: _, _ => Except.error ()

end

/-- `build_Series_from_records(records, index_length)` from maxquant.py:
flatten, pad every key tuple to the index length, and pair the padded keys
with the values in order (the `pd.Series` construction). -/
def build_Series_from_records (records : List (String × PyVal))
    (index_length : Nat) : Except Unit (List (PathKey × PyVal)) := do
  let flat ← flatten_dict_of_dicts records []
  flat.mapM (fun kv => do
    let key ← extend_tuple (kv.1.map some) index_length
    return (key, kv.2))

/-- Ordering of one `MultiIndex` component: the `NaN` padding (code `-1` in
the pandas `MultiIndex` representation) sorts before every label, labels sort as
Python strings (by code point). -/
def optStrLt : Option String → Option String → Bool
  | Option.none, Option.none => false
  | Option.none, some _ => true
  | some _, Option.none => false
  | some a, some b => pyStrLt a b

/-- Lexicographic ordering of padded key tuples, as `sort_index` orders the
`MultiIndex`. -/
def keyLt : PathKey → PathKey → Bool
  | [], [] => false
  | [], _ :: _ => true
  | _ :: _, [] => false
  | a :: as, b :: bs => optStrLt a b || (a == b && keyLt as bs)

/-- Stable insertion of one record into a key-sorted list (equal keys keep
their original relative order, as the pandas lexsort is stable). -/
def insertSorted (x : PathKey × PyVal) : List (PathKey × PyVal) →
    List (PathKey × PyVal)
  | [] => [x]
  | y :: ys => if keyLt y.1 x.1 then y :: insertSorted x ys else x :: y :: ys

/-- `record.sort_index()`: stable sort of the record by key. -/
def sortRecord : List (PathKey × PyVal) → List (PathKey × PyVal)
  | [] => []
  | x :: xs => insertSorted x (sortRecord xs)

/-- The values selected by a `record.loc[...]` lookup: all values whose key
starts with the given components, in index order.  A partial key (fewer
components than index levels) and a `pd.IndexSlice[..., :]` slicer both
select exactly the keys extending the given prefix. -/
def locValues (record : List (PathKey × PyVal)) (p : PathKey) : List PyVal :=
  (record.filter (fun kv => p.isPrefixOf kv.1)).map (fun kv => kv.2)

/-- The result of `.squeeze()` on a lookup result: a bare scalar or a
still-indexed collection. -/
inductive Squeezed where
  | scalar (v : PyVal)
  | multi (vs : List PyVal)

/-- `record.loc[p]` followed by `.squeeze()`: `loc` raises `KeyError` when
nothing matches; `squeeze` unwraps a single-element result to its bare value
and leaves a multi-element result as a collection. -/
def locSqueeze (record : List (PathKey × PyVal)) (p : PathKey) :
    Except Unit Squeezed :=
  match locValues record p with
  | [] => Except.error ()
  | [v] => Except.ok (Squeezed.scalar v)
  | vs => Except.ok (Squeezed.multi vs)

/-- Modelled from the spec: the `ProteoBenchParameters` class is imported
from `proteobench.io.params`, which is not among the given sources.  §3
"ParameterRecord" describes it as a fixed set of named fields in which
"absent fields are explicitly null, never omitted silently", so every field
defaults to `Option.none`.  Fields assigned a lookup result hold a
`Squeezed` value; fields the extractor builds as strings hold a `String`. -/
structure ProteoBenchParameters where
  search_engine : Option String := Option.none
  software_version : Option Squeezed := Option.none
  ident_fdr_psm : Option Squeezed := Option.none
  ident_fdr_peptide : Option Squeezed := Option.none
  ident_fdr_protein : Option Squeezed := Option.none
  enable_match_between_runs : Option Squeezed := Option.none
  precursor_mass_tolerance : Option String := Option.none
  fragment_mass_tolerance : Option Squeezed := Option.none
  enzyme : Option Squeezed := Option.none
  allowed_miscleavages : Option Squeezed := Option.none
  min_peptide_length : Option Squeezed := Option.none
  max_peptide_length : Option Squeezed := Option.none
  fixed_mods : Option String := Option.none
  variable_mods : Option String := Option.none
  max_mods : Option Squeezed := Option.none
  min_precursor_charge : Option Squeezed := Option.none
  max_precursor_charge : Option Squeezed := Option.none

/-- The string produced by the Python f-string interpolation for a scalar value:
strings render as themselves, `None` renders as `"None"` (dicts and lists
never reach the interpolation site, rendered here by a placeholder). -/
def pyValStr : PyVal → String
  | PyVal.str s => s
  | PyVal.none => "None"
  | PyVal.dict _ => "<dict>"
  | PyVal.list _ => "<list>"

/-- The string produced by the Python f-string interpolation for a squeezed
lookup result: the rendering of the bare scalar, or (for a collection that was
not squeezed to a scalar) the multi-line `repr` of the pandas Series, which
is abstracted here as the newline-joined renderings of the values. -/
def pyFStr : Squeezed → String
  | Squeezed.scalar v => pyValStr v
  | Squeezed.multi vs => String.intercalate "\n" (vs.map pyValStr)

/-- `",".join(x)` after the `isinstance(x, str)` test of `extract_params`:
a bare string passes through, a collection of strings is comma-joined, and
anything else (`None`, a collection with non-string members) raises
`TypeError`. -/
def joinMods : Squeezed → Except Unit String
  | Squeezed.scalar (PyVal.str s) => Except.ok s
  | Squeezed.scalar _ => Except.error ()
  | Squeezed.multi vs => do
      let strs ← vs.mapM (fun v => match v with
        | PyVal.str s => Except.ok s
        | _ => Except.error ())
      return String.intercalate "," strs

/-- `params.software_version > "1.6.0.0"`: defined only when the squeezed
version is a bare string (otherwise Python raises while comparing or while
branching on the result). -/
def versionGt (v : Squeezed) : Except Unit Bool :=
  match v with
  | Squeezed.scalar (PyVal.str s) => Except.ok (pyStrLt "1.6.0.0" s)
  | _ => Except.error ()

/-- The key prefix `("parameterGroups", "parameterGroup", last)` used by the
`pd.IndexSlice` lookups of `extract_params`. -/
def pgPrefix (last : String) : PathKey :=
  [some "parameterGroups", some "parameterGroup", some last]

/-- `read_file` followed by `build_Series_from_records(record, 4)` and
`.sort_index()`, as `extract_params` builds its lookup index.  A document
whose root reads to `None` makes `flatten_dict_of_dicts` fail (Python:
`None.items()` raises `AttributeError`). -/
def builtRecord (doc : XML) : Except Unit (List (PathKey × PyVal)) := do
  let entries ← (match read_file doc with
    | PyVal.dict es => Except.ok es
    | _ => Except.error ())
  let record ← build_Series_from_records entries 4
  return sortRecord record

/-- The version-conditional `fixedModifications` lookup of
`extract_params`: the nested path for versions above `"1.6.0.0"` (string
comparison), the top-level path otherwise.  (In the source both branches
then run the same `isinstance`/join logic, which here follows once after
the lookup.) -/
def fixedModsLookup (record : List (PathKey × PyVal)) (verGt : Bool) :
    Except Unit Squeezed :=
  if verGt then locSqueeze record (pgPrefix "fixedModifications")
  else locSqueeze record [some "fixedModifications"]

/-- The field-extraction part of `extract_params`, after the index has been
built: the source-order sequence of lookups, the version-conditional
`fixedModifications` path choice, and the final assembled record. -/
def extractFromRecord (record : List (PathKey × PyVal)) :
    Except Unit ProteoBenchParameters := do
  let software_version ← locSqueeze record [some "maxQuantVersion"]
  let ident_fdr_peptide ← locSqueeze record [some "peptideFdr"]
  let ident_fdr_protein ← locSqueeze record [some "proteinFdr"]
  let enable_match_between_runs ← locSqueeze record [some "matchBetweenRuns"]
  let precursor_mass_tolerance ← locSqueeze record (pgPrefix "mainSearchTol")
  let enzyme ← locSqueeze record
    [some "parameterGroups", some "parameterGroup", some "enzymes", some "string"]
  let allowed_miscleavages ← locSqueeze record (pgPrefix "maxMissedCleavages")
  let min_peptide_length ← locSqueeze record [some "minPepLen"]
  let verGt ← versionGt software_version
  let fixedMods ← fixedModsLookup record verGt
  let fixed_mods ← joinMods fixedMods
  let variableMods ← locSqueeze record (pgPrefix "variableModifications")
  let variable_mods ← joinMods variableMods
  let max_mods ← locSqueeze record (pgPrefix "maxNmods")
  let max_precursor_charge ← locSqueeze record (pgPrefix "maxCharge")
  return { search_engine := some "Andromeda",
           software_version := some software_version,
           ident_fdr_psm := Option.none,
           ident_fdr_peptide := some ident_fdr_peptide,
           ident_fdr_protein := some ident_fdr_protein,
           enable_match_between_runs := some enable_match_between_runs,
           precursor_mass_tolerance :=
             some (pyFStr precursor_mass_tolerance ++ " ppm"),
           fragment_mass_tolerance := Option.none,
           enzyme := some enzyme,
           allowed_miscleavages := some allowed_miscleavages,
           min_peptide_length := some min_peptide_length,
           max_peptide_length := Option.none,
           fixed_mods := some fixed_mods,
           variable_mods := some variable_mods,
           max_mods := some max_mods,
           min_precursor_charge := Option.none,
           max_precursor_charge := some max_precursor_charge }

/-- `extract_params(fname)` from maxquant.py: build the sorted index from
the document and extract the parameter record from it. -/
def extract_params (doc : XML) : Except Unit ProteoBenchParameters := do
  let record ← builtRecord doc
  extractFromRecord record

/-- A parameter group with all the fields `extract_params` looks up, with
`fixedModifications` nested inside it when `fixedMods` is given. -/
def paramGroupXML (fixedMods : List String) : XML :=
  XML.elem "parameterGroup" ""
    ([XML.elem "mainSearchTol" "4.5" [],
      XML.elem "maxMissedCleavages" "2" [],
      XML.elem "enzymes" "" [XML.elem "string" "Trypsin/P" []],
      XML.elem "variableModifications" ""
        [XML.elem "string" "Oxidation (M)" [],
         XML.elem "string" "Acetyl (Protein N-term)" []],
      XML.elem "maxNmods" "5" [],
      XML.elem "maxCharge" "7" []] ++
     (if fixedMods.isEmpty then [] else
       [XML.elem "fixedModifications" ""
         (fixedMods.map (fun m => XML.elem "string" m []))]))

/-- A complete parameter document: the given version string, the top-level
scalar fields, optionally a top-level `fixedModifications` group, and one
parameter group (with `fixedModifications` nested inside it when
`nestedMods` is given). -/
def mqparDoc (version : String) (nestedMods topMods : List String) : XML :=
  XML.elem "MaxQuantParams" ""
    ([XML.elem "maxQuantVersion" version [],
      XML.elem "peptideFdr" "0.01" [],
      XML.elem "proteinFdr" "0.01" [],
      XML.elem "matchBetweenRuns" "True" [],
      XML.elem "minPepLen" "7" []] ++
     (if topMods.isEmpty then [] else
       [XML.elem "fixedModifications" ""
         (topMods.map (fun m => XML.elem "string" m []))]) ++
     [XML.elem "parameterGroups" "" [paramGroupXML nestedMods]])


/-- `read_file` followed by `build_Series_from_records(record, 4)`: the
un-sorted flattening pipeline (as run twice by `__main__`-style callers). -/
def pipeline (doc : XML) : Except Unit (List (PathKey × PyVal)) :=
  match read_file doc with
  | PyVal.dict es => build_Series_from_records es 4
  | _ => Except.error ()

/-- Looking a tag up in the result of `read_xml_record`: the entry of the
produced dict, or nothing when the result is not a dict. -/
def dictGetTop (v : PyVal) (t : String) : Option PyVal :=
  match v with
  | PyVal.dict d => dictGet d t
  | _ => Option.none

/-- One `add_record` step seen from a single key: how the value stored under
a tag evolves when one more record arrives for the same tag. -/
def addFold : Option PyVal → PyVal → Option PyVal
  | Option.none, r => some r
  | some (PyVal.list xs), r => some (PyVal.list (xs ++ [r]))
  | some v, r => some (PyVal.list [v, r])

/-- Iterated `addFold`: the value stored under a tag after a sequence of
`add_record` calls for that tag. -/
def foldAdd : Option PyVal → List PyVal → Option PyVal
  | cur, [] => cur
  | cur, r :: rs => foldAdd (addFold cur r) rs

mutual

/-- Whether a string with the given contents occurs anywhere in a value
(used to exhibit dropped document content). -/
def containsStrVal : PyVal → String → Bool
  | PyVal.str s, t => s == t
  | PyVal.none, _ => false
  | PyVal.dict es, t => containsStrEntries es t
  | PyVal.list items, t => containsStrItems items t

/-- `containsStrVal` over dict entries. -/
def containsStrEntries : List (String × PyVal) → String → Bool
  | [], _ => false
  | (_, v) :: rest, t => containsStrVal v t || containsStrEntries rest t

/-- `containsStrVal` over list items. -/
def containsStrItems : List PyVal → String → Bool
  | [], _ => false
  | v :: rest, t => containsStrVal v t || containsStrItems rest t

end

mutual

/-- No string stored anywhere in the value is the empty string. -/
def noBlankVal : PyVal → Bool
  | PyVal.str s => s != ""
  | PyVal.none => true
  | PyVal.dict es => noBlankEntries es
  | PyVal.list items => noBlankItems items

/-- `noBlankVal` over dict entries. -/
def noBlankEntries : List (String × PyVal) → Bool
  | [] => true
  | (_, v) :: rest => noBlankVal v && noBlankEntries rest

/-- `noBlankVal` over list items. -/
def noBlankItems : List PyVal → Bool
  | [] => true
  | v :: rest => noBlankVal v && noBlankItems rest

end

mutual

/-- Whether some dict in the value holds a list containing an item that is
neither a mapping nor a string (the shapes `flatten_dict_of_dicts` rejects
with its "Unknown item" error). -/
def hasBadVal : PyVal → Bool
  | PyVal.dict es => hasBadEntries es
  | PyVal.list items => hasBadItems items
  | _ => false

/-- `hasBadVal` over dict entries. -/
def hasBadEntries : List (String × PyVal) → Bool
  | [] => false
  | (_, v) :: rest => hasBadVal v || hasBadEntries rest

/-- Whether a list (in dict-value position) contains an item that is neither
a mapping nor a string, or a bad item nested deeper inside a mapping item. -/
def hasBadItems : List PyVal → Bool
  | [] => false
  | PyVal.dict es :: rest => hasBadEntries es || hasBadItems rest
  | PyVal.str _ :: rest => hasBadItems rest
  | _ :: _ => true

end

/-! ## Generic helper lemmas -/

theorem exceptBind_ok {α β : Type} {x : Except Unit α} {f : α → Except Unit β}
    {b : β} : (x >>= f) = Except.ok b ↔ ∃ a, x = Except.ok a ∧ f a = Except.ok b := by
  cases x with
  | error e => simp [Bind.bind, Except.bind]
  | ok a => simp [Bind.bind, Except.bind]

theorem exceptPure_ok {α : Type} {a b : α} :
    (pure a : Except Unit α) = Except.ok b ↔ a = b := by
  simp [pure, Except.pure]

theorem pathKey_isPrefixOf_of {p k : PathKey} (h : p <+: k) :
    p.isPrefixOf k = true := by
  induction p generalizing k with
  | nil => simp [List.isPrefixOf]
  | cons a as ih =>
      obtain ⟨u, rfl⟩ := h
      simp only [List.cons_append, List.isPrefixOf, Bool.and_eq_true,
        beq_self_eq_true, true_and]
      exact ih ⟨u, rfl⟩

/-! ## C3: padding law of `extend_tuple` -/

/-- **C3.** For every tuple `t` and target length `L`, `extend_tuple` raises
exactly when `len(t) > L`, and otherwise returns `t` right-padded with
trailing `None` placeholders to length exactly `L`. -/
theorem c3_extend_tuple_padding (t : PathKey) (L : Nat) :
    (t.length > L → extend_tuple t L = Except.error ()) ∧
    (t.length ≤ L →
      extend_tuple t L =
        Except.ok (t ++ List.replicate (L - t.length) Option.none) ∧
      (t ++ List.replicate (L - t.length) Option.none).length = L ∧
      t <+: t ++ List.replicate (L - t.length) Option.none) := by
  constructor
  · intro h
    simp [extend_tuple, h]
  · intro h
    refine ⟨?_, ?_, ⟨List.replicate (L - t.length) Option.none, rfl⟩⟩
    · simp [extend_tuple, Nat.not_lt.mpr h]
    · simp only [List.length_append, List.length_replicate]
      omega

/-- Witness for C3 at `t = [some "a"]`, `L = 3` (and the fatal side at
`L = 0`). -/
theorem c3_extend_tuple_padding_witness :
    extend_tuple [some "a"] 3 =
      Except.ok [some "a", Option.none, Option.none] ∧
    extend_tuple [some "a"] 0 = Except.error () := by
  constructor
  · exact ((c3_extend_tuple_padding [some "a"] 3).2 (by decide)).1
  · exact (c3_extend_tuple_padding [some "a"] 0).1 (by decide)

/-! ## C4: squeeze semantics of index lookups -/

/-- **C4 counterexample.** The claim says a lookup yielding zero results is
an empty result, not an exception; but `record.loc[...]` raises `KeyError`
when nothing matches: on the one-entry index `{("a",None,None,None): "x"}`
the lookup for prefix `("missing",)` is an error, not an empty result. -/
theorem c4_counterexample :
    locSqueeze [([some "a", Option.none, Option.none, Option.none], PyVal.str "x")]
      [some "missing"] = Except.error () := rfl

/-- **C4 amended.** A lookup yielding exactly one result unwraps to the bare
scalar and a lookup yielding `N > 1` results stays a same-length ordered
collection, but a lookup yielding zero results raises `KeyError` (an
exception), not an empty result. -/
theorem c4_squeeze_amended (record : List (PathKey × PyVal)) (p : PathKey) :
    (locValues record p = [] → locSqueeze record p = Except.error ()) ∧
    (∀ v, locValues record p = [v] →
      locSqueeze record p = Except.ok (Squeezed.scalar v)) ∧
    (∀ v w vs, locValues record p = v :: w :: vs →
      locSqueeze record p = Except.ok (Squeezed.multi (v :: w :: vs))) := by
  refine ⟨fun h => ?_, fun v h => ?_, fun v w vs h => ?_⟩ <;>
    simp [locSqueeze, h]

/-- Witness for C4 (amended) on a two-entry index with a duplicated key. -/
theorem c4_squeeze_amended_witness :
    locSqueeze [([some "a"], PyVal.str "x"), ([some "a"], PyVal.str "y")]
      [some "a"] =
      Except.ok (Squeezed.multi [PyVal.str "x", PyVal.str "y"]) :=
  (c4_squeeze_amended
    [([some "a"], PyVal.str "x"), ([some "a"], PyVal.str "y")] [some "a"]).2.2
    (PyVal.str "x") (PyVal.str "y") [] rfl

/-! ## C6: prefix-lookup completeness -/

/-- **C6.** For every key `k` present in the built sorted index and every
prefix `p` of `k`, the prefix lookup on `p` includes the value associated with `k`
among its results. -/
theorem c6_lookup_complete (doc : XML) (rec : List (PathKey × PyVal))
    (k : PathKey) (v : PyVal) (p : PathKey)
    (_hrec : builtRecord doc = Except.ok rec) (hk : (k, v) ∈ rec)
    (hp : p <+: k) : v ∈ locValues rec p := by
  unfold locValues
  exact List.mem_map.mpr
    ⟨(k, v), List.mem_filter.mpr ⟨hk, pathKey_isPrefixOf_of hp⟩, rfl⟩

/-- Witness for C6: the index built from `<r><a>x1</a></r>` contains the key
`("a", None, None, None)`, and the prefix lookup on `("a",)` finds its
value. -/
theorem c6_lookup_complete_witness :
    PyVal.str "x1" ∈
      locValues [([some "a", Option.none, Option.none, Option.none],
        PyVal.str "x1")] [some "a"] :=
  c6_lookup_complete (XML.elem "r" "" [XML.elem "a" "x1" []])
    [([some "a", Option.none, Option.none, Option.none], PyVal.str "x1")]
    [some "a", Option.none, Option.none, Option.none] (PyVal.str "x1")
    [some "a"] rfl (List.mem_singleton.mpr rfl)
    ⟨[Option.none, Option.none, Option.none], rfl⟩

/-! ## C9: determinism of the pipeline -/

/-- **C9.** The pipeline is deterministic: it is a pure function of the
document, so running `read_file` followed by `build_Series_from_records` on
byte-for-byte equal documents yields identical flat records (no randomness,
clock or external state can influence the result). -/
theorem c9_pipeline_deterministic (d1 d2 : XML) (h : d1 = d2) :
    pipeline d1 = pipeline d2 := by rw [h]

/-- Witness for C9 on a concrete document. -/
theorem c9_pipeline_deterministic_witness :
    pipeline (mqparDoc "2.1.3.0" ["Carbamidomethyl (C)"] []) =
      pipeline (mqparDoc "2.1.3.0" ["Carbamidomethyl (C)"] []) :=
  c9_pipeline_deterministic _ _ rfl

/-! ## C5: the flattener never silently drops unknown items -/

@[simp] theorem except_toBool_ok {ε α : Type} (a : α) :
    (Except.ok a : Except ε α).toBool = true := rfl

@[simp] theorem except_toBool_error {ε α : Type} (e : ε) :
    (Except.error e : Except ε α).toBool = false := rfl

mutual

theorem flattenEntries_ok_iff : ∀ (d : List (String × PyVal)) (pk : List String),
    (flatten_dict_of_dicts d pk).isOk = !hasBadEntries d
  | [], _ => by simp [flatten_dict_of_dicts, hasBadEntries, Except.isOk, Except.toBool]
  | (k, v) :: rest, pk => by
      have h1 := flattenValue_ok_iff v (pk ++ [k])
      have h2 := flattenEntries_ok_iff rest pk
      simp only [flatten_dict_of_dicts, hasBadEntries]
      cases hv : flattenValue v (pk ++ [k]) with
      | error e =>
          rw [hv] at h1
          have hb : hasBadVal v = true := by
            revert h1; cases hasBadVal v <;> simp [Except.isOk, Except.toBool]
          simp [Bind.bind, Except.bind, Except.isOk, hb]
      | ok a =>
          rw [hv] at h1
          have hb : hasBadVal v = false := by
            revert h1; cases hasBadVal v <;> simp [Except.isOk, Except.toBool]
          cases ht : flatten_dict_of_dicts rest pk with
          | error e =>
              rw [ht] at h2
              have hb2 : hasBadEntries rest = true := by
                revert h2; cases hasBadEntries rest <;> simp [Except.isOk, Except.toBool]
              simp [Bind.bind, Except.bind, Except.isOk, hb, hb2]
          | ok b =>
              rw [ht] at h2
              have hb2 : hasBadEntries rest = false := by
                revert h2; cases hasBadEntries rest <;> simp [Except.isOk, Except.toBool]
              simp [Bind.bind, Except.bind, Except.isOk, Pure.pure,
                Except.pure, hb, hb2]

theorem flattenValue_ok_iff : ∀ (v : PyVal) (pk : List String),
    (flattenValue v pk).isOk = !hasBadVal v
  | PyVal.str s, pk => by simp [flattenValue, hasBadVal, Except.isOk, Except.toBool]
  | PyVal.none, pk => by simp [flattenValue, hasBadVal, Except.isOk, Except.toBool]
  | PyVal.dict es, pk => by
      simpa [flattenValue, hasBadVal] using flattenEntries_ok_iff es pk
  | PyVal.list items, pk => by
      simpa [flattenValue, hasBadVal] using flattenItems_ok_iff items pk

theorem flattenItems_ok_iff : ∀ (items : List PyVal) (pk : List String),
    (flattenItems items pk).isOk = !hasBadItems items
  | [], _ => by simp [flattenItems, hasBadItems, Except.isOk, Except.toBool]
  | PyVal.dict es :: rest, pk => by
      have h1 := flattenEntries_ok_iff es pk
      have h2 := flattenItems_ok_iff rest pk
      simp only [flattenItems, hasBadItems]
      cases hv : flatten_dict_of_dicts es pk with
      | error e =>
          rw [hv] at h1
          have hb : hasBadEntries es = true := by
            revert h1; cases hasBadEntries es <;> simp [Except.isOk, Except.toBool]
          simp [Bind.bind, Except.bind, Except.isOk, hb]
      | ok a =>
          rw [hv] at h1
          have hb : hasBadEntries es = false := by
            revert h1; cases hasBadEntries es <;> simp [Except.isOk, Except.toBool]
          cases ht : flattenItems rest pk with
          | error e =>
              rw [ht] at h2
              have hb2 : hasBadItems rest = true := by
                revert h2; cases hasBadItems rest <;> simp [Except.isOk, Except.toBool]
              simp [Bind.bind, Except.bind, Except.isOk, hb, hb2]
          | ok b =>
              rw [ht] at h2
              have hb2 : hasBadItems rest = false := by
                revert h2; cases hasBadItems rest <;> simp [Except.isOk, Except.toBool]
              simp [Bind.bind, Except.bind, Except.isOk, Pure.pure,
                Except.pure, hb, hb2]
  | PyVal.str s :: rest, pk => by
      have h2 := flattenItems_ok_iff rest pk
      simp only [flattenItems, hasBadItems]
      cases ht : flattenItems rest pk with
      | error e =>
          rw [ht] at h2
          have hb2 : hasBadItems rest = true := by
            revert h2; cases hasBadItems rest <;> simp [Except.isOk, Except.toBool]
          simp [Bind.bind, Except.bind, Except.isOk, hb2]
      | ok b =>
          rw [ht] at h2
          have hb2 : hasBadItems rest = false := by
            revert h2; cases hasBadItems rest <;> simp [Except.isOk, Except.toBool]
          simp [Bind.bind, Except.bind, Except.isOk, Pure.pure,
            Except.pure, hb2]
  | PyVal.none :: rest, pk => by
      simp [flattenItems, hasBadItems, Except.isOk, Except.toBool]
  | PyVal.list xs :: rest, pk => by
      simp [flattenItems, hasBadItems, Except.isOk, Except.toBool]

end

/-- **C5.** `flatten_dict_of_dicts` fails with its fatal "unknown item"
error exactly when some list in the nested mapping contains an element that
is neither a mapping nor a string; in particular every such element makes
the whole flattening raise — nothing is silently dropped. -/
theorem c5_flatten_unknown_item (d : List (String × PyVal)) (pk : List String) :
    ((flatten_dict_of_dicts d pk).isOk = !hasBadEntries d) ∧
    (hasBadEntries d = true → flatten_dict_of_dicts d pk = Except.error ()) := by
  refine ⟨flattenEntries_ok_iff d pk, fun hb => ?_⟩
  have h := flattenEntries_ok_iff d pk
  rw [hb] at h
  cases hf : flatten_dict_of_dicts d pk with
  | error e => cases e; rfl
  | ok a => rw [hf] at h; simp [Except.isOk, Except.toBool] at h

/-- Witness for C5: a list holding a `None` item (as produced for repeated
empty siblings) is a fatal error, and the same dict without the bad item
flattens fine. -/
theorem c5_flatten_unknown_item_witness :
    flatten_dict_of_dicts [("a", PyVal.list [PyVal.none])] [] =
      Except.error () ∧
    (flatten_dict_of_dicts [("a", PyVal.str "x")] []).isOk = true :=
  ⟨(c5_flatten_unknown_item [("a", PyVal.list [PyVal.none])] []).2 rfl,
   (c5_flatten_unknown_item [("a", PyVal.str "x")] []).1.trans rfl⟩

/-! ## C1: representation of repeated sibling tags -/

theorem dictGet_dictSet_self (d : List (String × PyVal)) (t : String) (v : PyVal) :
    dictGet (dictSet d t v) t = some v := by
  induction d with
  | nil => simp [dictSet, dictGet]
  | cons kv rest ih =>
      obtain ⟨k, w⟩ := kv
      by_cases hk : k = t
      · simp [dictSet, dictGet, hk]
      · simp [dictSet, dictGet, hk, ih]

theorem dictGet_dictSet_ne (d : List (String × PyVal)) (t' t : String)
    (v : PyVal) (h : t' ≠ t) : dictGet (dictSet d t' v) t = dictGet d t := by
  induction d with
  | nil => simp [dictSet, dictGet, fun hc => h hc]
  | cons kv rest ih =>
      obtain ⟨k, w⟩ := kv
      by_cases hk : k = t'
      · subst hk
        simp [dictSet, dictGet, h]
      · simp [dictSet, dictGet, hk, ih]

theorem dictGet_append_self (d : List (String × PyVal)) (t : String) (r : PyVal)
    (h : dictGet d t = Option.none) : dictGet (d ++ [(t, r)]) t = some r := by
  induction d with
  | nil => simp [dictGet]
  | cons kv rest ih =>
      obtain ⟨k, w⟩ := kv
      by_cases hk : k = t
      · simp [dictGet, hk] at h
      · simp [dictGet, hk] at h ⊢
        exact ih h

theorem dictGet_append_ne (d : List (String × PyVal)) (t' t : String) (r : PyVal)
    (h : t' ≠ t) : dictGet (d ++ [(t', r)]) t = dictGet d t := by
  induction d with
  | nil => simp [dictGet, fun hc => h hc]
  | cons kv rest ih =>
      obtain ⟨k, w⟩ := kv
      by_cases hk : k = t
      · simp [dictGet, hk]
      · simp [dictGet, hk, ih]

theorem dictGet_add_record_self (d : List (String × PyVal)) (t : String)
    (r : PyVal) : dictGet (add_record d t r) t = addFold (dictGet d t) r := by
  unfold add_record
  cases h : dictGet d t with
  | none => simp [addFold, dictGet_append_self d t r h]
  | some v =>
      cases v <;> simp [addFold, dictGet_dictSet_self]

theorem dictGet_add_record_ne (d : List (String × PyVal)) (t' t : String)
    (r : PyVal) (h : t' ≠ t) : dictGet (add_record d t' r) t = dictGet d t := by
  unfold add_record
  cases hg : dictGet d t' with
  | none => exact dictGet_append_ne d t' t r h
  | some v =>
      cases v <;> simp [dictGet_dictSet_ne _ _ _ _ h]

/-- A child with at most one element child is always handled through
`add_record` with its `grandRecord`-shaped record. -/
theorem readChild_small (data : List (String × PyVal)) (c : XML)
    (h : c.childrenOf.length ≤ 1) :
    readChild data c = add_record data c.tagOf (grandRecord c) := by
  obtain ⟨tag, text, cs⟩ := c
  simp only [XML.childrenOf] at h
  have hlen : ¬ (cs.length > 1 ∧ tag ≠ "") := by
    intro hc
    omega
  by_cases ht : pyStrip text ≠ ""
  · simp [readChild, grandRecord, XML.tagOf, hlen, ht]
  · simp [readChild, grandRecord, XML.tagOf, hlen, ht]

/-- A child with a different tag never touches the entry stored under `t`. -/
theorem readChild_preserve (data : List (String × PyVal)) (c : XML)
    (t : String) (h : c.tagOf ≠ t) :
    dictGet (readChild data c) t = dictGet data t := by
  obtain ⟨tag, text, cs⟩ := c
  simp only [XML.tagOf] at h
  by_cases hlen : cs.length > 1 ∧ tag ≠ ""
  · simp [readChild, hlen, dictGet_dictSet_ne _ _ _ _ h]
  · by_cases ht : pyStrip text ≠ ""
    · simp [readChild, hlen, ht, dictGet_add_record_ne _ _ _ _ h]
    · simp [readChild, hlen, ht, dictGet_add_record_ne _ _ _ _ h]

/-- Per-tag invariant of the reader loop: under a tag whose occurrences all
have at most one element child, the stored value is the `addFold`-fold of
the per-occurrence records, in document order. -/
theorem readChildren_tag (cs : List XML) (data : List (String × PyVal))
    (t : String) (h : ∀ c ∈ cs, c.tagOf = t → c.childrenOf.length ≤ 1) :
    dictGet (readChildren cs data) t =
      foldAdd (dictGet data t)
        ((cs.filter (fun c => c.tagOf = t)).map grandRecord) := by
  induction cs generalizing data with
  | nil => simp [readChildren, foldAdd]
  | cons c rest ih =>
      have hrest : ∀ c' ∈ rest, c'.tagOf = t → c'.childrenOf.length ≤ 1 :=
        fun c' hm ht' => h c' (List.mem_cons_of_mem _ hm) ht'
      by_cases hc : c.tagOf = t
      · have hsmall := h c (List.mem_cons_self c rest) hc
        have hstep : readChild data c = add_record data t (grandRecord c) := by
          rw [readChild_small data c hsmall, hc]
        have hfil : List.filter (fun c => decide (c.tagOf = t)) (c :: rest)
            = c :: List.filter (fun c => decide (c.tagOf = t)) rest := by
          simp [List.filter_cons, hc]
        rw [show readChildren (c :: rest) data
              = readChildren rest (readChild data c) from rfl,
          ih (readChild data c) hrest, hstep, dictGet_add_record_self, hfil,
          List.map_cons]
        rfl
      · have hfil : List.filter (fun c => decide (c.tagOf = t)) (c :: rest)
            = List.filter (fun c => decide (c.tagOf = t)) rest := by
          simp [List.filter_cons, hc]
        rw [show readChildren (c :: rest) data
              = readChildren rest (readChild data c) from rfl,
          ih (readChild data c) hrest, readChild_preserve data c t hc, hfil]

theorem grandRecord_ne_list (c : XML) (xs : List PyVal) :
    grandRecord c ≠ PyVal.list xs := by
  obtain ⟨tag, text, cs⟩ := c
  by_cases ht : pyStrip text ≠ ""
  · simp [grandRecord, ht]
  · simp only [grandRecord, ht, if_false, mkNode]
    by_cases he : (readChildren cs []).isEmpty <;> simp [he]

theorem foldAdd_list (rs : List PyVal) (xs : List PyVal) :
    foldAdd (some (PyVal.list xs)) rs = some (PyVal.list (xs ++ rs)) := by
  induction rs generalizing xs with
  | nil => simp [foldAdd]
  | cons r rest ih => simp [foldAdd, addFold, ih]

theorem foldAdd_none_spec (g : PyVal) (gs : List PyVal)
    (hg : ∀ xs, g ≠ PyVal.list xs) :
    foldAdd Option.none (g :: gs) =
      (match g :: gs with
       | [] => Option.none
       | [r] => some r
       | r :: rs => some (PyVal.list (r :: rs))) := by
  cases gs with
  | nil => rfl
  | cons g2 rest =>
      show foldAdd (addFold (some g) g2) rest = _
      have h2 : addFold (some g) g2 = some (PyVal.list [g, g2]) := by
        cases g with
        | list xs => exact absurd rfl (hg xs)
        | str s => rfl
        | none => rfl
        | dict es => rfl
      rw [h2, foldAdd_list]
      simp

/-- `dictGetTop` looks through `mkNode` transparently. -/
theorem dictGetTop_mkNode (data : List (String × PyVal)) (t : String) :
    dictGetTop (mkNode data) t = dictGet data t := by
  by_cases h : data.isEmpty
  · cases data with
    | nil => simp [mkNode, dictGetTop, dictGet]
    | cons kv rest => simp [List.isEmpty] at h
  · simp [mkNode, h, dictGetTop]

/-- **C1 counterexample.** In `<root><a><x>1</x><x>2</x></a><a><x>3</x><x>4</x></a></root>`
the tag `a` occurs twice among direct siblings, but because each occurrence
has more than one element child, the second `data[child.tag] = [...]`
assignment overwrites the first: the result holds only the second
occurrence, and the leaf value `"1"` of the first occurrence is dropped —
the tag is not represented as a sequence holding all of its occurrences. -/
theorem c1_counterexample :
    read_xml_record (XML.elem "root" ""
        [XML.elem "a" "" [XML.elem "x" "1" [], XML.elem "x" "2" []],
         XML.elem "a" "" [XML.elem "x" "3" [], XML.elem "x" "4" []]])
      = PyVal.dict [("a", PyVal.list [PyVal.dict [("x", PyVal.str "3")],
          PyVal.dict [("x", PyVal.str "4")]])] ∧
    containsStrVal (read_xml_record (XML.elem "root" ""
        [XML.elem "a" "" [XML.elem "x" "1" [], XML.elem "x" "2" []],
         XML.elem "a" "" [XML.elem "x" "3" [], XML.elem "x" "4" []]])) "1"
      = false :=
  ⟨rfl, rfl⟩

/-- **C1 amended.** Among direct children all of whose same-tag occurrences
have at most one element child, a tag occurring more than once is
represented as a sequence holding all of its occurrences in document order
and a tag occurring exactly once is a scalar entry (an occurrence with more
than one element child is instead rewritten as a per-grandchild sequence,
overwriting earlier same-tag entries, as the counterexample shows).  The
scenario document `<a><b>1</b><b>2</b></a>` (as a direct child of the root)
flattens to exactly two entries with key `("a","b")` and values `"1"`,`"2"`
in that order. -/
theorem c1_sibling_groups :
    (∀ (root : XML) (t : String),
      (∀ c ∈ root.childrenOf, c.tagOf = t → c.childrenOf.length ≤ 1) →
      dictGetTop (read_xml_record root) t =
        (match (root.childrenOf.filter (fun c => c.tagOf = t)).map grandRecord with
         | [] => Option.none
         | [r] => some r
         | r :: rs => some (PyVal.list (r :: rs)))) ∧
    flattenValue (read_file (XML.elem "r" ""
        [XML.elem "a" "" [XML.elem "b" "1" [], XML.elem "b" "2" []]])) []
      = Except.ok [(["a", "b"], PyVal.str "1"), (["a", "b"], PyVal.str "2")] := by
  constructor
  · intro root t h
    obtain ⟨tag, text, cs⟩ := root
    simp only [XML.childrenOf] at h ⊢
    show dictGetTop (mkNode (readChildren cs [])) t = _
    rw [dictGetTop_mkNode, readChildren_tag cs [] t h]
    cases hf : (cs.filter (fun c => c.tagOf = t)).map grandRecord with
    | nil => rfl
    | cons g gs =>
        have hg : ∀ xs, g ≠ PyVal.list xs := by
          have hmem : g ∈ (cs.filter (fun c => c.tagOf = t)).map grandRecord := by
            rw [hf]; exact List.mem_cons_self g gs
          obtain ⟨c, _, rfl⟩ := List.mem_map.mp hmem
          exact grandRecord_ne_list c
        show foldAdd Option.none (g :: gs) = _
        rw [foldAdd_none_spec g gs hg]
  · rfl

/-- Witness for C1 (amended) on `<root><b>1</b><b>2</b><c>9</c></root>`:
tag `b` (twice, each occurrence a leaf) is a two-element sequence in
document order; tag `c` (once) is a scalar entry. -/
theorem c1_sibling_groups_witness :
    dictGetTop (read_xml_record (XML.elem "root" ""
        [XML.elem "b" "1" [], XML.elem "b" "2" [], XML.elem "c" "9" []])) "b"
      = some (PyVal.list [PyVal.str "1", PyVal.str "2"]) ∧
    dictGetTop (read_xml_record (XML.elem "root" ""
        [XML.elem "b" "1" [], XML.elem "b" "2" [], XML.elem "c" "9" []])) "c"
      = some (PyVal.str "9") :=
  ⟨(c1_sibling_groups.1 (XML.elem "root" ""
      [XML.elem "b" "1" [], XML.elem "b" "2" [], XML.elem "c" "9" []]) "b"
      (by decide)).trans rfl,
   (c1_sibling_groups.1 (XML.elem "root" ""
      [XML.elem "b" "1" [], XML.elem "b" "2" [], XML.elem "c" "9" []]) "c"
      (by decide)).trans rfl⟩

/-! ## C2: text versus element children -/

/-- **C2 counterexample.** The claim says text is ignored whenever element
children exist; but for a child with exactly one element child and
non-whitespace text (`<m>txt<c>1</c></m>`), `read_xml_record` stores the
text and drops the child subtree entirely (the leaf `"1"` is gone). -/
theorem c2_counterexample :
    read_xml_record (XML.elem "root" ""
        [XML.elem "m" "txt" [XML.elem "c" "1" []]])
      = PyVal.dict [("m", PyVal.str "txt")] ∧
    containsStrVal (read_xml_record (XML.elem "root" ""
        [XML.elem "m" "txt" [XML.elem "c" "1" []]])) "1" = false :=
  ⟨rfl, rfl⟩

/-- **C2 amended.** The text of a node is ignored in favour of its children only
when it has more than one element child; a node with exactly one element
child and non-whitespace text has its text stored and its child ignored;
and inside a repeated-group expansion a grandchild with non-whitespace text
contributes its trimmed text even when it has element children. -/
theorem c2_text_ignored_rules :
    (∀ (data : List (String × PyVal)) (tag text text2 : String) (cs : List XML),
      cs.length > 1 → tag ≠ "" →
      readChild data (XML.elem tag text cs) =
        readChild data (XML.elem tag text2 cs)) ∧
    (∀ (data : List (String × PyVal)) (tag text : String) (c : XML),
      pyStrip text ≠ "" →
      readChild data (XML.elem tag text [c]) =
        add_record data tag (PyVal.str (pyStrip text))) ∧
    (∀ (tag text : String) (cs : List XML), pyStrip text ≠ "" →
      grandRecord (XML.elem tag text cs) = PyVal.str (pyStrip text)) := by
  refine ⟨fun data tag text text2 cs h1 h2 => ?_,
    fun data tag text c ht => ?_, fun tag text cs ht => ?_⟩
  · simp [readChild, h1, h2]
  · simp [readChild, ht]
  · simp [grandRecord, ht]

/-- Witness for C2 (amended) at concrete nodes. -/
theorem c2_text_ignored_rules_witness :
    readChild [] (XML.elem "g" "a" [XML.elem "x" "1" [], XML.elem "y" "2" []])
      = readChild [] (XML.elem "g" "b" [XML.elem "x" "1" [], XML.elem "y" "2" []]) ∧
    readChild [] (XML.elem "m" "txt" [XML.elem "c" "1" []])
      = [("m", PyVal.str "txt")] ∧
    grandRecord (XML.elem "p" "t" [XML.elem "q" "1" []]) = PyVal.str "t" :=
  ⟨c2_text_ignored_rules.1 [] "g" "a" "b"
      [XML.elem "x" "1" [], XML.elem "y" "2" []] (by decide) (by decide),
   (c2_text_ignored_rules.2.1 [] "m" "txt" (XML.elem "c" "1" [])
      (by decide)).trans rfl,
   (c2_text_ignored_rules.2.2 "p" "t" [XML.elem "q" "1" []] (by decide)).trans rfl⟩

/-! ## C8: empty regions and blank text -/

theorem dictSet_ne_nil (d : List (String × PyVal)) (t : String) (v : PyVal) :
    dictSet d t v ≠ [] := by
  cases d with
  | nil => simp [dictSet]
  | cons kv rest =>
      obtain ⟨k, w⟩ := kv
      by_cases hk : k = t <;> simp [dictSet, hk]

theorem add_record_ne_nil (d : List (String × PyVal)) (t : String) (r : PyVal) :
    add_record d t r ≠ [] := by
  unfold add_record
  cases dictGet d t with
  | none => simp
  | some v => cases v <;> exact dictSet_ne_nil _ _ _

theorem readChild_ne_nil (data : List (String × PyVal)) (c : XML) :
    readChild data c ≠ [] := by
  obtain ⟨tag, text, cs⟩ := c
  show (if cs.length > 1 ∧ tag ≠ "" then
      dictSet data tag (PyVal.list (readGrandchildren cs))
    else if pyStrip text ≠ "" then
      add_record data tag (PyVal.str (pyStrip text))
    else add_record data tag (mkNode (readChildren cs []))) ≠ []
  by_cases hlen : cs.length > 1 ∧ tag ≠ ""
  · rw [if_pos hlen]
    exact dictSet_ne_nil _ _ _
  · rw [if_neg hlen]
    by_cases ht : pyStrip text ≠ ""
    · rw [if_pos ht]
      exact add_record_ne_nil _ _ _
    · rw [if_neg ht]
      exact add_record_ne_nil _ _ _

theorem readChildren_ne_nil (cs : List XML) (data : List (String × PyVal))
    (h : data ≠ [] ∨ cs ≠ []) : readChildren cs data ≠ [] := by
  induction cs generalizing data with
  | nil =>
      rcases h with hd | hc
      · simpa [readChildren] using hd
      · exact absurd rfl hc
  | cons c rest ih =>
      exact ih (readChild data c) (Or.inl (readChild_ne_nil data c))

theorem noBlank_dictGet (d : List (String × PyVal)) (t : String) (v : PyVal)
    (hd : noBlankEntries d = true) (hg : dictGet d t = some v) :
    noBlankVal v = true := by
  induction d with
  | nil => simp [dictGet] at hg
  | cons kv rest ih =>
      obtain ⟨k, w⟩ := kv
      simp only [noBlankEntries, Bool.and_eq_true] at hd
      by_cases hk : k = t
      · simp only [dictGet, hk, if_true, Option.some.injEq, eq_self_iff_true] at hg
        exact hg ▸ hd.1
      · simp only [dictGet, hk, if_false] at hg
        exact ih hd.2 hg

theorem noBlank_dictSet (d : List (String × PyVal)) (t : String) (v : PyVal)
    (hd : noBlankEntries d = true) (hv : noBlankVal v = true) :
    noBlankEntries (dictSet d t v) = true := by
  induction d with
  | nil => simp [dictSet, noBlankEntries, hv]
  | cons kv rest ih =>
      obtain ⟨k, w⟩ := kv
      simp only [noBlankEntries, Bool.and_eq_true] at hd
      by_cases hk : k = t
      · simp [dictSet, hk, noBlankEntries, hv, hd.2]
      · simp [dictSet, hk, noBlankEntries, hd.1, ih hd.2]

theorem noBlank_entries_append (d : List (String × PyVal)) (t : String)
    (r : PyVal) (hd : noBlankEntries d = true) (hr : noBlankVal r = true) :
    noBlankEntries (d ++ [(t, r)]) = true := by
  induction d with
  | nil => simp [noBlankEntries, hr]
  | cons kv rest ih =>
      obtain ⟨k, w⟩ := kv
      simp only [noBlankEntries, Bool.and_eq_true] at hd
      simp only [List.cons_append, noBlankEntries, Bool.and_eq_true]
      exact ⟨hd.1, ih hd.2⟩

theorem noBlank_items_append (xs : List PyVal) (r : PyVal)
    (hx : noBlankItems xs = true) (hr : noBlankVal r = true) :
    noBlankItems (xs ++ [r]) = true := by
  induction xs with
  | nil => simp [noBlankItems, hr]
  | cons x rest ih =>
      simp only [noBlankItems, Bool.and_eq_true] at hx
      simp only [List.cons_append, noBlankItems, Bool.and_eq_true]
      exact ⟨hx.1, ih hx.2⟩

theorem noBlank_pair (v r : PyVal) (hv : noBlankVal v = true)
    (hr : noBlankVal r = true) : noBlankVal (PyVal.list [v, r]) = true := by
  show noBlankItems [v, r] = true
  simp [noBlankItems, hv, hr]

theorem noBlank_add_record (d : List (String × PyVal)) (t : String) (r : PyVal)
    (hd : noBlankEntries d = true) (hr : noBlankVal r = true) :
    noBlankEntries (add_record d t r) = true := by
  unfold add_record
  cases hg : dictGet d t with
  | none => exact noBlank_entries_append d t r hd hr
  | some v =>
      have hv := noBlank_dictGet d t v hd hg
      cases v with
      | list xs =>
          refine noBlank_dictSet d t _ hd ?_
          have hx : noBlankItems xs = true := hv
          show noBlankItems (xs ++ [r]) = true
          exact noBlank_items_append xs r hx hr
      | str s => exact noBlank_dictSet d t _ hd (noBlank_pair _ _ hv hr)
      | none => exact noBlank_dictSet d t _ hd (noBlank_pair _ _ hv hr)
      | dict es => exact noBlank_dictSet d t _ hd (noBlank_pair _ _ hv hr)

theorem noBlank_mkNode (d : List (String × PyVal))
    (hd : noBlankEntries d = true) : noBlankVal (mkNode d) = true := by
  by_cases h : d.isEmpty <;> simp [mkNode, h, noBlankVal, hd]

mutual

theorem noBlank_readChildren : ∀ (cs : List XML) (data : List (String × PyVal)),
    noBlankEntries data = true → noBlankEntries (readChildren cs data) = true
  | [], _, hd => hd
  | c :: rest, data, hd =>
      noBlank_readChildren rest (readChild data c) (noBlank_readChild data c hd)

theorem noBlank_readChild : ∀ (data : List (String × PyVal)) (c : XML),
    noBlankEntries data = true → noBlankEntries (readChild data c) = true
  | data, XML.elem tag text cs, hd => by
      show noBlankEntries (if cs.length > 1 ∧ tag ≠ "" then
          dictSet data tag (PyVal.list (readGrandchildren cs))
        else if pyStrip text ≠ "" then
          add_record data tag (PyVal.str (pyStrip text))
        else add_record data tag (mkNode (readChildren cs []))) = true
      by_cases hlen : cs.length > 1 ∧ tag ≠ ""
      · rw [if_pos hlen]
        refine noBlank_dictSet data tag _ hd ?_
        show noBlankItems (readGrandchildren cs) = true
        exact noBlank_readGrandchildren cs
      · rw [if_neg hlen]
        by_cases ht : pyStrip text ≠ ""
        · rw [if_pos ht]
          refine noBlank_add_record data tag _ hd ?_
          show (pyStrip text != "") = true
          simpa using ht
        · rw [if_neg ht]
          exact noBlank_add_record data tag _ hd
            (noBlank_mkNode _ (noBlank_readChildren cs [] rfl))

theorem noBlank_readGrandchildren : ∀ (cs : List XML),
    noBlankItems (readGrandchildren cs) = true
  | [] => rfl
  | gc :: rest => by
      show (noBlankVal (PyVal.dict [(gc.tagOf, grandRecord gc)])
        && noBlankItems (readGrandchildren rest)) = true
      have h1 : noBlankVal (PyVal.dict [(gc.tagOf, grandRecord gc)]) = true := by
        show (noBlankVal (grandRecord gc) && noBlankEntries []) = true
        simp [noBlank_grandRecord gc, noBlankEntries]
      simp [h1, noBlank_readGrandchildren rest]

theorem noBlank_grandRecord : ∀ (c : XML), noBlankVal (grandRecord c) = true
  | XML.elem tag text cs => by
      show noBlankVal (if pyStrip text ≠ "" then PyVal.str (pyStrip text)
        else mkNode (readChildren cs [])) = true
      by_cases ht : pyStrip text ≠ ""
      · rw [if_pos ht]
        show (pyStrip text != "") = true
        simpa using ht
      · rw [if_neg ht]
        exact noBlank_mkNode _ (noBlank_readChildren cs [] rfl)

end

/-- **C8 counterexample.** The claim says an element whose subtree yields no
entries reads to `None` and contributes zero flattened entries; but
`<root><a></a></root>` (no non-whitespace text anywhere) reads to the
mapping `{"a": None}` — not `None` — and flattening it contributes one
entry, with key `("a",)` and a null value, not zero entries. -/
theorem c8_counterexample :
    read_xml_record (XML.elem "root" "" [XML.elem "a" "" []])
      = PyVal.dict [("a", PyVal.none)] ∧
    flattenValue (read_xml_record (XML.elem "root" "" [XML.elem "a" "" []])) []
      = Except.ok [(["a"], PyVal.none)] :=
  ⟨rfl, rfl⟩

/-- **C8 amended.** `read_xml_record` returns `None` exactly when the
element has no element children (so an empty element itself reads to
`None`); an element with children but no text anywhere yields a mapping
whose empty children appear as entries with a `None` value, and such an
entry contributes one flattened entry with a null value, not zero.
Whitespace-only or empty leaf text is never stored as a blank string:
no string stored anywhere in a read result is empty. -/
theorem c8_empty_and_blank :
    (∀ e : XML, read_xml_record e = PyVal.none ↔ e.childrenOf = []) ∧
    (∀ e : XML, noBlankVal (read_xml_record e) = true) ∧
    read_xml_record (XML.elem "a" "" []) = PyVal.none ∧
    flatten_dict_of_dicts [("a", PyVal.none)] []
      = Except.ok [(["a"], PyVal.none)] := by
  refine ⟨fun e => ?_, fun e => ?_, rfl, rfl⟩
  · obtain ⟨tag, text, cs⟩ := e
    show mkNode (readChildren cs []) = PyVal.none ↔ _
    cases cs with
    | nil => simp [readChildren, mkNode, XML.childrenOf]
    | cons c rest =>
        have hne := readChildren_ne_nil (c :: rest) [] (Or.inr (by simp))
        simp only [XML.childrenOf]
        constructor
        · intro h
          rw [mkNode] at h
          by_cases he : (readChildren (c :: rest) []).isEmpty
          · exact absurd (List.isEmpty_iff.mp he) hne
          · rw [if_neg he] at h
            exact absurd h (by simp)
        · intro h
          exact absurd h (by simp)
  · obtain ⟨tag, text, cs⟩ := e
    exact noBlank_mkNode _ (noBlank_readChildren cs [] rfl)

/-- Witness for C8 (amended): an element with no children reads to `None`
even with whitespace text, and the record of a document with a blank-text
leaf holds no empty string. -/
theorem c8_empty_and_blank_witness :
    read_xml_record (XML.elem "x" " \n " []) = PyVal.none ∧
    noBlankVal (read_xml_record
      (XML.elem "r" "" [XML.elem "a" "  " [], XML.elem "b" " v " []])) = true :=
  ⟨(c8_empty_and_blank.1 (XML.elem "x" " \n " [])).mpr rfl,
   c8_empty_and_blank.2.1
     (XML.elem "r" "" [XML.elem "a" "  " [], XML.elem "b" " v " []])⟩

/-! ## C10 and C7: the schema extractor -/

/-- Destructuring of a successful `extractFromRecord` run: every lookup
succeeded in source order, and the resulting record is the literal assembled
from them. -/
theorem extractFromRecord_ok (rec : List (PathKey × PyVal))
    (p : ProteoBenchParameters) (h : extractFromRecord rec = Except.ok p) :
    ∃ sv fdrPep fdrProt mbr tol enz misc minlen b fm fmS vm vmS mm mc,
      locSqueeze rec [some "maxQuantVersion"] = Except.ok sv ∧
      locSqueeze rec [some "peptideFdr"] = Except.ok fdrPep ∧
      locSqueeze rec [some "proteinFdr"] = Except.ok fdrProt ∧
      locSqueeze rec [some "matchBetweenRuns"] = Except.ok mbr ∧
      locSqueeze rec (pgPrefix "mainSearchTol") = Except.ok tol ∧
      locSqueeze rec [some "parameterGroups", some "parameterGroup",
        some "enzymes", some "string"] = Except.ok enz ∧
      locSqueeze rec (pgPrefix "maxMissedCleavages") = Except.ok misc ∧
      locSqueeze rec [some "minPepLen"] = Except.ok minlen ∧
      versionGt sv = Except.ok b ∧
      fixedModsLookup rec b = Except.ok fm ∧
      joinMods fm = Except.ok fmS ∧
      locSqueeze rec (pgPrefix "variableModifications") = Except.ok vm ∧
      joinMods vm = Except.ok vmS ∧
      locSqueeze rec (pgPrefix "maxNmods") = Except.ok mm ∧
      locSqueeze rec (pgPrefix "maxCharge") = Except.ok mc ∧
      p = { search_engine := some "Andromeda", software_version := some sv,
            ident_fdr_psm := Option.none, ident_fdr_peptide := some fdrPep,
            ident_fdr_protein := some fdrProt,
            enable_match_between_runs := some mbr,
            precursor_mass_tolerance := some (pyFStr tol ++ " ppm"),
            fragment_mass_tolerance := Option.none, enzyme := some enz,
            allowed_miscleavages := some misc,
            min_peptide_length := some minlen,
            max_peptide_length := Option.none, fixed_mods := some fmS,
            variable_mods := some vmS, max_mods := some mm,
            min_precursor_charge := Option.none,
            max_precursor_charge := some mc } := by
  unfold extractFromRecord at h
  simp only [exceptBind_ok, exceptPure_ok] at h
  obtain ⟨sv, hsv, fdrPep, hfp, fdrProt, hfr, mbr, hmbr, tol, htol, enz, henz,
    misc, hmisc, minlen, hminlen, b, hb, fm, hfm, fmS, hfmS, vm, hvm, vmS,
    hvmS, mm, hmm, mc, hmc, hp⟩ := h
  exact ⟨sv, fdrPep, fdrProt, mbr, tol, enz, misc, minlen, b, fm, fmS, vm,
    vmS, mm, mc, hsv, hfp, hfr, hmbr, htol, henz, hmisc, hminlen, hb, hfm,
    hfmS, hvm, hvmS, hmm, hmc, hp.symm⟩

/-- **C10.** Whenever `extract_params` returns successfully, the record has
`search_engine = "Andromeda"`, has `ident_fdr_psm`, `max_peptide_length`,
`min_precursor_charge` and `fragment_mass_tolerance` all null, and has
`precursor_mass_tolerance` equal to the looked-up tolerance value with
`" ppm"` appended — regardless of the content of the document. -/
theorem c10_fixed_fields (doc : XML) (p : ProteoBenchParameters)
    (h : extract_params doc = Except.ok p) :
    p.search_engine = some "Andromeda" ∧ p.ident_fdr_psm = Option.none ∧
    p.max_peptide_length = Option.none ∧
    p.min_precursor_charge = Option.none ∧
    p.fragment_mass_tolerance = Option.none ∧
    ∃ rec tol, builtRecord doc = Except.ok rec ∧
      locSqueeze rec (pgPrefix "mainSearchTol") = Except.ok tol ∧
      p.precursor_mass_tolerance = some (pyFStr tol ++ " ppm") := by
  unfold extract_params at h
  rw [exceptBind_ok] at h
  obtain ⟨rec, hrec, hext⟩ := h
  obtain ⟨sv, fdrPep, fdrProt, mbr, tol, enz, misc, minlen, b, fm, fmS, vm,
    vmS, mm, mc, hsv, hfp, hfr, hmbr, htol, henz, hmisc, hminlen, hb, hfm,
    hfmS, hvm, hvmS, hmm, hmc, hp⟩ := extractFromRecord_ok rec p hext
  subst hp
  exact ⟨rfl, rfl, rfl, rfl, rfl, rec, tol, hrec, htol, rfl⟩

/-- Witness for C10 on a concrete document (tolerance `4.5` becomes
`"4.5 ppm"`). -/
theorem c10_fixed_fields_witness :
    ∃ p, extract_params (mqparDoc "2.1.3.0" ["Carbamidomethyl (C)"] [])
        = Except.ok p ∧
      p.search_engine = some "Andromeda" ∧ p.ident_fdr_psm = Option.none ∧
      p.fragment_mass_tolerance = Option.none ∧
      p.precursor_mass_tolerance = some "4.5 ppm" := by
  refine ⟨_, rfl, ?_, ?_, ?_, rfl⟩
  · exact (c10_fixed_fields
      (mqparDoc "2.1.3.0" ["Carbamidomethyl (C)"] []) _ rfl).1
  · exact (c10_fixed_fields
      (mqparDoc "2.1.3.0" ["Carbamidomethyl (C)"] []) _ rfl).2.1
  · exact (c10_fixed_fields
      (mqparDoc "2.1.3.0" ["Carbamidomethyl (C)"] []) _ rfl).2.2.2.2.1

/-- **C7 counterexample.** Two documents differing *only* in where
`fixedModifications` is nested (same `maxQuantVersion` `2.1.3.0`) do not
resolve to the same `fixed_mods`: the nested variant succeeds, but the
top-level variant makes `extract_params` raise `KeyError`, because the
version test selects the nested path in both. -/
theorem c7_counterexample :
    (extract_params (mqparDoc "2.1.3.0" ["Carbamidomethyl (C)"] [])).map
        (fun q => q.fixed_mods) = Except.ok (some "Carbamidomethyl (C)") ∧
    extract_params (mqparDoc "2.1.3.0" [] ["Carbamidomethyl (C)"])
      = Except.error () :=
  ⟨rfl, rfl⟩

/-- **C7 amended.** For two successfully extracted documents whose version
fields are scalar strings on opposite sides of the `"1.6.0.0"` string
comparison — above for the document with `fixedModifications` nested under
the parameter group, not above for the one with it at top level — and whose
`fixedModifications` lookups at those respective locations yield the same
value sequence, `extract_params` selects the lookup path from the
`maxQuantVersion` field read earlier from the same record, and both
documents resolve to the same `fixed_mods` value. -/
theorem c7_version_conditional (d1 d2 : XML)
    (r1 r2 : List (PathKey × PyVal)) (v1 v2 : String)
    (h1 : builtRecord d1 = Except.ok r1)
    (h2 : builtRecord d2 = Except.ok r2)
    (hv1 : locSqueeze r1 [some "maxQuantVersion"]
      = Except.ok (Squeezed.scalar (PyVal.str v1)))
    (hv2 : locSqueeze r2 [some "maxQuantVersion"]
      = Except.ok (Squeezed.scalar (PyVal.str v2)))
    (hgt : pyStrLt "1.6.0.0" v1 = true)
    (hle : pyStrLt "1.6.0.0" v2 = false)
    (hmods : locValues r1 (pgPrefix "fixedModifications")
      = locValues r2 [some "fixedModifications"])
    (hs1 : ∃ q, extract_params d1 = Except.ok q)
    (hs2 : ∃ q, extract_params d2 = Except.ok q) :
    (extract_params d1).map (fun q => q.fixed_mods)
      = (extract_params d2).map (fun q => q.fixed_mods) := by
  obtain ⟨q1, hq1⟩ := hs1
  obtain ⟨q2, hq2⟩ := hs2
  have hx1 : extractFromRecord r1 = Except.ok q1 := by
    unfold extract_params at hq1
    rw [exceptBind_ok] at hq1
    obtain ⟨r, hr, hext⟩ := hq1
    rw [h1] at hr
    cases hr
    exact hext
  have hx2 : extractFromRecord r2 = Except.ok q2 := by
    unfold extract_params at hq2
    rw [exceptBind_ok] at hq2
    obtain ⟨r, hr, hext⟩ := hq2
    rw [h2] at hr
    cases hr
    exact hext
  obtain ⟨sv1, _, _, _, _, _, _, _, b1, fm1, fmS1, _, _, _, _, hsv1, _, _, _,
    _, _, _, _, hb1, hfm1, hfmS1, _, _, _, _, hp1⟩ :=
    extractFromRecord_ok r1 q1 hx1
  obtain ⟨sv2, _, _, _, _, _, _, _, b2, fm2, fmS2, _, _, _, _, hsv2, _, _, _,
    _, _, _, _, hb2, hfm2, hfmS2, _, _, _, _, hp2⟩ :=
    extractFromRecord_ok r2 q2 hx2
  rw [hv1] at hsv1
  cases hsv1
  rw [hv2] at hsv2
  cases hsv2
  rw [show versionGt (Squeezed.scalar (PyVal.str v1))
      = Except.ok (pyStrLt "1.6.0.0" v1) from rfl, hgt] at hb1
  cases hb1
  rw [show versionGt (Squeezed.scalar (PyVal.str v2))
      = Except.ok (pyStrLt "1.6.0.0" v2) from rfl, hle] at hb2
  cases hb2
  rw [show fixedModsLookup r1 true
      = locSqueeze r1 (pgPrefix "fixedModifications") from rfl] at hfm1
  rw [show fixedModsLookup r2 false
      = locSqueeze r2 [some "fixedModifications"] from rfl] at hfm2
  have hsq : locSqueeze r1 (pgPrefix "fixedModifications")
      = locSqueeze r2 [some "fixedModifications"] := by
    unfold locSqueeze
    rw [hmods]
  rw [hsq, hfm2] at hfm1
  cases hfm1
  rw [hfmS2] at hfmS1
  cases hfmS1
  rw [hq1, hq2, hp1, hp2]
  rfl

/-- Witness for C7 (amended): a new-version document with nested
modifications and an old-version document with top-level modifications
resolve to the same `fixed_mods`. -/
theorem c7_version_conditional_witness :
    (extract_params (mqparDoc "2.1.3.0" ["Carbamidomethyl (C)"] [])).map
        (fun q => q.fixed_mods)
      = (extract_params (mqparDoc "1.5.3.30" [] ["Carbamidomethyl (C)"])).map
        (fun q => q.fixed_mods) :=
  c7_version_conditional
    (mqparDoc "2.1.3.0" ["Carbamidomethyl (C)"] [])
    (mqparDoc "1.5.3.30" [] ["Carbamidomethyl (C)"]) _ _
    "2.1.3.0" "1.5.3.30" rfl rfl rfl rfl rfl rfl rfl ⟨_, rfl⟩ ⟨_, rfl⟩
